import Mathlib

/-!
Verification of the motiondetector pipeline (src/motiondetector.cpp) against
its natural-language specification.

The development shallowly embeds the parts of the program the claims are
about:

* the bounded drop-oldest queue of `AsynchronousQueue`
  (`checkQueueSizeConstraint`, `pushNewVideoFrame`, the drain loop of
  `waitForNewVideoFrame`, and the wait predicate of its condition variable);
* the `VideoSourceElement` constructor and its inter-frame delay expression;
* the linking / downstream propagation contract of `BaseElement`
  (`link`, `processAndPushDownstream`);
* the pattern matcher of `DetectorElement`
  (`markPattern`, `checkPatternAndMarkExistingPatterns`).

Frames in the queue model are identified by a natural number; pixel grids
are lists of rows of natural-number cell values (the C++ stores `uint8_t`
cells whose only produced values are 0, 1 and 2, so natural numbers embed
them faithfully for every operation performed on them).
-/

/-! ## Definitions

### AsynchronousQueue: the bounded drop-oldest queue

The C++ member `m_videoFramesQueue` is a `std::queue<shared_ptr<VideoFrame>>`.
We model it as a `List FrameId` whose head is the front (oldest element) of
the queue; frames are identified by the natural number they carry. -/

/-- Identifier standing for one `shared_ptr<VideoFrame>` handed to the queue. -/
abbrev FrameId := Nat

/-- Embedding of `AsynchronousQueue::checkQueueSizeConstraint` (lines 494-502):
`while (m_videoFramesQueue.size() > maxSize) { pop front }`. Each iteration of
the C++ loop removes the front (oldest) element while the size exceeds
`maxSize`. -/
def checkQueueSizeConstraint (maxSize : Nat) : List FrameId → List FrameId
  | [] => []
  | f :: rest =>
      if (f :: rest).length > maxSize then checkQueueSizeConstraint maxSize rest
      else f :: rest

/-- Embedding of `AsynchronousQueue::pushNewVideoFrame` (lines 511-521): when
`m_queueMaxSize > 0` it runs `checkQueueSizeConstraint(m_queueMaxSize)` and
then pushes the new frame at the back; when `m_queueMaxSize == 0` it does
nothing, so the frame is never enqueued. `AsynchronousQueue::process`
(lines 447-451) calls `start()` and then this function; its only effect on
the queue contents is this function's effect. -/
def pushNewVideoFrame (queueMaxSize : Nat) (q : List FrameId) (newVideoFrame : FrameId) :
    List FrameId :=
  if queueMaxSize > 0 then checkQueueSizeConstraint queueMaxSize q ++ [newVideoFrame]
  else q

/-- Embedding of the inner drain loop of `AsynchronousQueue::waitForNewVideoFrame`
(lines 541-559), for one drain with the running flag held fixed: while the
queue is non-empty, the front frame is popped; if `m_runningState` is false
the popped frame is discarded and the loop exits, otherwise the frame is
forwarded to every next element. The returned list is the sequence of frames
forwarded downstream, in forwarding order. -/
def drainLoop (runningState : Bool) : List FrameId → List FrameId
  | [] => []
  | f :: rest => if runningState then f :: drainLoop runningState rest else []

/-- Embedding of the condition-variable predicate inside
`AsynchronousQueue::waitForNewVideoFrame` (lines 535-538): the lambda captures
`this` (so both `m_runningState` and the queue are accessible) but returns
only `m_videoFramesQueue.size()`, converted to `bool` (non-zero test). The
`runningState` argument records that the running flag is in scope for the
predicate yet unread. -/
def waitPredicate (runningState : Bool) (queueSize : Nat) : Bool :=
  decide (queueSize ≠ 0)

/-! ### VideoSourceElement: construction and frame-rate configuration -/

/-- State stored by the `VideoSourceElement` constructor (lines 135-138):
`m_width`, `m_height`, `m_frameRate`. -/
structure VideoSourceElement where
  width : Nat
  height : Nat
  frameRate : Nat

/-- Embedding of the `VideoSourceElement` constructor (lines 135-138). The
C++ constructor only copies the three arguments into the members; it performs
no validation of any of them and cannot fail. -/
def mkVideoSourceElement (width height frameRate : Nat) : VideoSourceElement :=
  ⟨width, height, frameRate⟩

/-- The inter-frame sleep expression of
`VideoSourceElement::RandomVideoFramesGenerator` (line 207):
`1000 / m_frameRate` milliseconds. In C++ this expression has undefined
behavior (division by zero) when `m_frameRate = 0`; Lean's natural division
is total, so this definition only represents the expression reached, not a
defined C++ value at zero. -/
def interFrameDelayMs (e : VideoSourceElement) : Nat :=
  1000 / e.frameRate

/-! ### BaseElement: linking and synchronous downstream propagation

`BaseElement` (lines 79-121) stores `m_nextElements : vector<Element*>`;
`link` appends to it and `processAndPushDownstream` iterates it in order,
calling `process` then `processAndPushDownstream` on each element. We model
a graph of stages with the default propagation behavior as a finitely
branching tree (the assembler builds an acyclic structure; each stage
carries its downstream list) and record, for one frame, the sequence of
`process` invocations in execution order. -/

/-- A pipeline stage with the default propagation behavior: an identifier and
the `m_nextElements` vector of downstream stages in link order. -/
inductive PipelineElem where
  | mk (id : Nat) (next : List PipelineElem)

/-- Identifier of a stage. -/
def elemId : PipelineElem → Nat
  | .mk i _ => i

/-- Embedding of `BaseElement::link` (lines 101-105) as its effect on the
linking stage: `m_nextElements.push_back(element)` appends the new downstream
stage at the back. (The C++ function returns its argument to allow chained
linking; the state change modeled here is the vector append.) -/
def link : PipelineElem → PipelineElem → PipelineElem
  | .mk i next, element => .mk i (next ++ [element])

mutual

/-- Sequence of stage identifiers whose `process` is invoked, in call order,
during `BaseElement::processAndPushDownstream` (lines 113-118) of the given
stage for one frame: for each downstream element in `m_nextElements` order,
`process` runs (one event) and then that element's own
`processAndPushDownstream` runs to completion (its events), before the next
downstream element is touched. -/
def downstreamTrace : PipelineElem → List Nat
  | .mk _ next => traceOfList next

/-- Events of the `for_each` loop body over a suffix of `m_nextElements`. -/
def traceOfList : List PipelineElem → List Nat
  | [] => []
  | c :: cs => (elemId c :: downstreamTrace c) ++ traceOfList cs

end

/-! ### DetectorElement: the pattern matcher

`DetectorElement::process` calls `checkPatternAndMarkExistingPatterns`
(lines 356-400). That function copies the frame's pixel grid
(`vector<vector<uint8_t>> pixels = videoFrame->m_pixels;` — a by-value copy),
rejects frames smaller than the pattern, scans the *copy* for the pattern and
marks every find in the frame itself via `markPattern` (lines 339-348).

A pixel grid is a list of rows of natural-number cells (C++ `uint8_t`; the
program only ever produces the values 0, 1 and 2). Out-of-range vector
indexing is undefined behavior in C++; the embedding is total, and every
theorem below is used only on inputs (rectangular grids, non-empty patterns,
in-bounds anchors) where the C++ performs no out-of-range access. -/

/-- A pixel grid: the `vector<vector<uint8_t>>` of rows. -/
abbrev Grid := List (List Nat)

/-- Cell of a grid at row `k`, column `h` (0 outside the grid; the program
never reads outside the grid on the inputs the theorems quantify over). -/
def cell (g : Grid) (k h : Nat) : Nat :=
  (g.getD k []).getD h 0

/-- One marking assignment of `DetectorElement::markPattern` (line 345):
`pixels[k][h] = (pixels[k][h] > 0 ? 2 : pixels[k][h])`. -/
def markCell (v : Nat) : Nat :=
  if 0 < v then 2 else v

/-- Embedding of `DetectorElement::markPattern` (lines 339-348): for every
row index `k` in `[yPosition, yPosition + pattern.size())` and every column
index `h` in `[xPosition, xPosition + pattern[0].size())` the cell is
replaced by `markCell` of its current value; all other cells are unchanged.
(The C++ loops assign exactly those cells in place, each exactly once and
from its own old value only; rebuilding every row pointwise is the same
grid.) -/
def markPattern (patternToDetect pixels : Grid) (xPosition yPosition : Nat) : Grid :=
  (List.range pixels.length).map fun k =>
    if yPosition ≤ k ∧ k < yPosition + patternToDetect.length then
      (List.range (pixels.getD k []).length).map fun h =>
        if xPosition ≤ h ∧ h < xPosition + (patternToDetect.headD []).length then
          markCell ((pixels.getD k []).getD h 0)
        else (pixels.getD k []).getD h 0
    else pixels.getD k []

/-- Embedding of one `equal(pat.begin(), pat.end(), row.begin() + i)` call
(lines 376 and 384): the `pat.length` cells of `row` starting at column `i`
equal `pat`. (The scan loops only evaluate it with `i + pat.length` within
the row, where the C++ comparison reads no element past the end.) -/
def rowMatchesAt (pat row : List Nat) (i : Nat) : Bool :=
  decide ((row.drop i).take pat.length = pat)

/-- Full-match test of the scan at anchor `(j, i)` (lines 376-388): row `k`
of the pattern equals the cells of frame row `j + k` starting at column `i`,
for every `k` (the code tests `k = 0` first and then `k = 1, ...`; the
conjunction is the same). -/
def fullMatchAt (patternToDetect pixels : Grid) (j i : Nat) : Bool :=
  (List.range patternToDetect.length).all fun k =>
    rowMatchesAt (patternToDetect.getD k []) (pixels.getD (j + k) []) i

/-- Anchor positions `(j, i)` visited by the scan loops (lines 367 and 374):
`j` runs over `[0, pixels.size() - pattern.size())` and, for each `j`, `i`
runs over `[0, pixels[j].size() - pattern[0].size())` — both bounds strict,
as in the code. -/
def anchorList (patternToDetect pixels : Grid) : List (Nat × Nat) :=
  (List.range (pixels.length - patternToDetect.length)).flatMap fun j =>
    (List.range ((pixels.getD j []).length - (patternToDetect.headD []).length)).map
      fun i => (j, i)

/-- The scan body over a list of anchors: at each anchor the pattern is
compared against `snapshot` (the by-value copy of the pixels taken at entry,
line 358) and, on a full match, `markPattern` is applied to the evolving
frame (line 395). Anchors are visited in loop order. -/
def processAnchors (patternToDetect snapshot : Grid) :
    List (Nat × Nat) → Grid → Grid
  | [], frame => frame
  | a :: rest, frame =>
      processAnchors patternToDetect snapshot rest
        (if fullMatchAt patternToDetect snapshot a.1 a.2 then
          markPattern patternToDetect frame a.2 a.1
        else frame)

/-- The size guard (lines 361-365): reject when the frame has fewer rows than
the pattern or its first row is shorter than the pattern's first row. -/
def sizeGuardFails (patternToDetect pixels : Grid) : Bool :=
  decide (pixels.length < patternToDetect.length)
    || decide ((pixels.headD []).length < (patternToDetect.headD []).length)

/-- Embedding of `DetectorElement::checkPatternAndMarkExistingPatterns`
(lines 356-400), the whole effect of `DetectorElement::process` on the
frame's pixels: copy the grid, return the frame unchanged if the guard
fails, otherwise scan the copy over all visited anchors and mark every full
match in the frame. -/
def checkPatternAndMarkExistingPatterns (patternToDetect pixels : Grid) : Grid :=
  if sizeGuardFails patternToDetect pixels then pixels
  else processAnchors patternToDetect pixels (anchorList patternToDetect pixels) pixels

/-- The anchors at which the scan reports a find (the positions printed at
line 393 and passed to `markPattern`), in visit order. -/
def recordedMatches (patternToDetect pixels : Grid) : List (Nat × Nat) :=
  if sizeGuardFails patternToDetect pixels then []
  else (anchorList patternToDetect pixels).filter fun a =>
    fullMatchAt patternToDetect pixels a.1 a.2

/-- Marking pass over a list of found anchors, in order. -/
def foldMarks (patternToDetect : Grid) : List (Nat × Nat) → Grid → Grid
  | [], frame => frame
  | a :: rest, frame =>
      foldMarks patternToDetect rest (markPattern patternToDetect frame a.2 a.1)

/-- Whether some anchor in the list has the cell `(k, h)` inside its marking
footprint (the rectangle `markPattern` writes). -/
def coveredB (patternToDetect : Grid) (ms : List (Nat × Nat)) (k h : Nat) : Bool :=
  ms.any fun a =>
    decide (a.1 ≤ k) && decide (k < a.1 + patternToDetect.length)
      && decide (a.2 ≤ h) && decide (h < a.2 + (patternToDetect.headD []).length)

/-- Scan written as claim C5 reads it (a definition following the spec's
words, for comparison with the code's `processAnchors`): the row-equality
comparisons at each anchor read the frame as already mutated by the marking
of earlier matches, instead of the entry snapshot. -/
def processAnchorsMutatingScan (patternToDetect : Grid) :
    List (Nat × Nat) → Grid → Grid
  | [], frame => frame
  | a :: rest, frame =>
      processAnchorsMutatingScan patternToDetect rest
        (if fullMatchAt patternToDetect frame a.1 a.2 then
          markPattern patternToDetect frame a.2 a.1
        else frame)

/-- Whole-call variant of `checkPatternAndMarkExistingPatterns` under claim
C5's reading: identical except that the scan reads the mutated frame. -/
def checkPatternMutatingScan (patternToDetect pixels : Grid) : Grid :=
  if sizeGuardFails patternToDetect pixels then pixels
  else processAnchorsMutatingScan patternToDetect (anchorList patternToDetect pixels) pixels

/-! ## Lemmas -/

/-- Taking the head with a default is reading index 0 with that default. -/
lemma headD_eq_getD {α : Type} (l : List α) (d : α) : l.headD d = l.getD 0 d := by
  cases l <;> rfl

/-- Reading a mapped range with a default. -/
lemma getD_range_map {α : Type} (n : Nat) (f : Nat → α) (k : Nat) (d : α) :
    ((List.range n).map f).getD k d = if k < n then f k else d := by
  by_cases h : k < n
  · rw [if_pos h, List.getD_eq_getElem?_getD, List.getElem?_map, List.getElem?_range h]
    rfl
  · rw [if_neg h, List.getD_eq_getElem?_getD, List.getElem?_eq_none]
    · rfl
    · simp only [List.length_map, List.length_range]
      omega

/-- The eviction loop keeps the last `min length maxSize` elements: it drops
elements from the front until at most `maxSize` remain. -/
lemma checkQueueSizeConstraint_eq_drop (maxSize : Nat) (q : List FrameId) :
    checkQueueSizeConstraint maxSize q = q.drop (q.length - maxSize) := by
  induction q with
  | nil => simp [checkQueueSizeConstraint]
  | cons f rest ih =>
      by_cases h : (f :: rest).length > maxSize
      · have hlen : (f :: rest).length - maxSize = (rest.length - maxSize) + 1 := by
          simp only [List.length_cons] at h ⊢
          omega
        rw [checkQueueSizeConstraint, if_pos h, ih, hlen, List.drop_succ_cons]
      · have hlen : (f :: rest).length - maxSize = 0 := by
          simp only [List.length_cons] at h ⊢
          omega
        rw [checkQueueSizeConstraint, if_neg h, hlen, List.drop_zero]

/-- After eviction the queue holds at most `maxSize` frames. -/
lemma checkQueueSizeConstraint_length_le (maxSize : Nat) (q : List FrameId) :
    (checkQueueSizeConstraint maxSize q).length ≤ maxSize := by
  rw [checkQueueSizeConstraint_eq_drop, List.length_drop]
  omega

/-- With a positive capacity, a push is exactly: evict down to at most
`queueMaxSize`, then append at the back. -/
lemma pushNewVideoFrame_eq (queueMaxSize : Nat) (h : 1 ≤ queueMaxSize)
    (q : List FrameId) (f : FrameId) :
    pushNewVideoFrame queueMaxSize q f = checkQueueSizeConstraint queueMaxSize q ++ [f] := by
  rw [pushNewVideoFrame, if_pos (by omega)]

/-- Enqueueing a sequence of frames into an initially empty queue keeps
exactly the `queueMaxSize + 1` most recent frames (all of them while fewer
have been enqueued), in FIFO order. -/
lemma foldl_pushNewVideoFrame (queueMaxSize : Nat) (h : 1 ≤ queueMaxSize)
    (fs : List FrameId) :
    List.foldl (pushNewVideoFrame queueMaxSize) [] fs
      = fs.drop (fs.length - (queueMaxSize + 1)) := by
  induction fs using List.reverseRecOn with
  | nil => simp
  | append_singleton fs f ih =>
      rw [List.foldl_append, List.foldl_cons, List.foldl_nil,
        pushNewVideoFrame_eq queueMaxSize h, checkQueueSizeConstraint_eq_drop, ih,
        List.drop_drop, List.length_drop]
      have hlen : fs.length - (queueMaxSize + 1)
            + (fs.length - (fs.length - (queueMaxSize + 1)) - queueMaxSize)
            = fs.length - queueMaxSize := by
        omega
      have hle : fs.length - queueMaxSize ≤ fs.length := by omega
      have hlen2 : (fs ++ [f]).length - (queueMaxSize + 1) = fs.length - queueMaxSize := by
        rw [List.length_append, List.length_singleton]
        omega
      rw [hlen, hlen2, List.drop_append_of_le_length hle]

/-- While the running flag stays true, the drain loop forwards the whole
queue, front first. -/
lemma drainLoop_true (q : List FrameId) : drainLoop true q = q := by
  induction q with
  | nil => rfl
  | cons f rest ih => rw [drainLoop, if_pos rfl, ih]

/-- The loop over `m_nextElements` concatenates per-element event blocks in
link order. -/
lemma traceOfList_append (xs ys : List PipelineElem) :
    traceOfList (xs ++ ys) = traceOfList xs ++ traceOfList ys := by
  induction xs with
  | nil => simp [traceOfList]
  | cons c cs ih => rw [List.cons_append, traceOfList, ih, traceOfList, List.append_assoc]

/-- Marking an already-marked or background cell changes nothing. -/
lemma markCell_markCell (v : Nat) : markCell (markCell v) = markCell v := by
  unfold markCell
  split_ifs <;> omega

/-- A marked cell is either background 0 or the matched value 2. -/
lemma markCell_zero_or_two (v : Nat) : markCell v = 0 ∨ markCell v = 2 := by
  unfold markCell
  split_ifs <;> omega

/-- `markPattern` keeps the number of rows. -/
lemma markPattern_length (patternToDetect pixels : Grid) (x y : Nat) :
    (markPattern patternToDetect pixels x y).length = pixels.length := by
  simp [markPattern]

/-- `markPattern` keeps every row's length. -/
lemma markPattern_row_length (patternToDetect pixels : Grid) (x y k : Nat) :
    ((markPattern patternToDetect pixels x y).getD k []).length
      = (pixels.getD k []).length := by
  rw [markPattern, getD_range_map]
  by_cases hk : k < pixels.length
  · rw [if_pos hk]
    by_cases hck : y ≤ k ∧ k < y + patternToDetect.length
    · rw [if_pos hck]
      simp
    · rw [if_neg hck]
  · rw [if_neg hk, List.getD_eq_default _ _ (by omega)]

/-- Cell-level description of `markPattern`: inside the footprint rectangle
the cell is `markCell` of the old cell, outside it is unchanged. -/
lemma markPattern_cell (patternToDetect pixels : Grid) (x y k h : Nat) :
    cell (markPattern patternToDetect pixels x y) k h
      = if y ≤ k ∧ k < y + patternToDetect.length
            ∧ x ≤ h ∧ h < x + (patternToDetect.headD []).length then
          markCell (cell pixels k h)
        else cell pixels k h := by
  unfold cell
  rw [markPattern, getD_range_map]
  by_cases hk : k < pixels.length
  · rw [if_pos hk]
    by_cases hck : y ≤ k ∧ k < y + patternToDetect.length
    · rw [if_pos hck, getD_range_map]
      by_cases hh : h < (pixels.getD k []).length
      · rw [if_pos hh]
        by_cases hch : x ≤ h ∧ h < x + (patternToDetect.headD []).length
        · rw [if_pos hch, if_pos ⟨hck.1, hck.2, hch.1, hch.2⟩]
        · rw [if_neg hch, if_neg (by tauto)]
      · have hrow0 : (pixels.getD k []).getD h 0 = 0 :=
          List.getD_eq_default _ _ (by omega)
        rw [if_neg hh, hrow0]
        by_cases hc : y ≤ k ∧ k < y + patternToDetect.length
              ∧ x ≤ h ∧ h < x + (patternToDetect.headD []).length
        · rw [if_pos hc]
          simp [markCell]
        · rw [if_neg hc]
    · rw [if_neg hck, if_neg (by tauto)]
  · have hrow : pixels.getD k [] = [] := List.getD_eq_default _ _ (by omega)
    rw [if_neg hk, hrow]
    by_cases hc : y ≤ k ∧ k < y + patternToDetect.length
          ∧ x ≤ h ∧ h < x + (patternToDetect.headD []).length
    · rw [if_pos hc]
      simp [markCell]
    · rw [if_neg hc]

/-- The marking pass keeps the number of rows. -/
lemma foldMarks_length (patternToDetect : Grid) (ms : List (Nat × Nat)) (pixels : Grid) :
    (foldMarks patternToDetect ms pixels).length = pixels.length := by
  induction ms generalizing pixels with
  | nil => rfl
  | cons a rest ih => rw [foldMarks, ih, markPattern_length]

/-- The marking pass keeps every row's length. -/
lemma foldMarks_row_length (patternToDetect : Grid) (ms : List (Nat × Nat))
    (pixels : Grid) (k : Nat) :
    ((foldMarks patternToDetect ms pixels).getD k []).length
      = (pixels.getD k []).length := by
  induction ms generalizing pixels with
  | nil => rfl
  | cons a rest ih => rw [foldMarks, ih, markPattern_row_length]

/-- Cell-level description of the whole marking pass: a cell covered by some
found anchor's footprint becomes `markCell` of its old value, every other
cell is unchanged. -/
lemma foldMarks_cell (patternToDetect : Grid) (ms : List (Nat × Nat))
    (pixels : Grid) (k h : Nat) :
    cell (foldMarks patternToDetect ms pixels) k h
      = if coveredB patternToDetect ms k h = true then markCell (cell pixels k h)
        else cell pixels k h := by
  induction ms generalizing pixels with
  | nil =>
      rw [foldMarks, if_neg]
      rw [coveredB]
      simp
  | cons a rest ih =>
      rw [foldMarks, ih, markPattern_cell]
      have hcons : coveredB patternToDetect (a :: rest) k h
          = ((decide (a.1 ≤ k) && decide (k < a.1 + patternToDetect.length)
              && decide (a.2 ≤ h) && decide (h < a.2 + (patternToDetect.headD []).length))
            || coveredB patternToDetect rest k h) := by
        rw [coveredB, List.any_cons]
        rfl
      by_cases h1 : a.1 ≤ k ∧ k < a.1 + patternToDetect.length
            ∧ a.2 ≤ h ∧ h < a.2 + (patternToDetect.headD []).length
      · have hb : (decide (a.1 ≤ k) && decide (k < a.1 + patternToDetect.length)
              && decide (a.2 ≤ h) && decide (h < a.2 + (patternToDetect.headD []).length))
            = true := by
          simp only [Bool.and_eq_true, decide_eq_true_eq]
          exact ⟨⟨⟨h1.1, h1.2.1⟩, h1.2.2.1⟩, h1.2.2.2⟩
        rw [if_pos h1, hcons, hb, Bool.true_or, if_pos rfl]
        by_cases h2 : coveredB patternToDetect rest k h = true
        · rw [if_pos h2, markCell_markCell]
        · rw [if_neg h2]
      · have hb : (decide (a.1 ≤ k) && decide (k < a.1 + patternToDetect.length)
              && decide (a.2 ≤ h) && decide (h < a.2 + (patternToDetect.headD []).length))
            = false := by
          rw [Bool.eq_false_iff]
          intro hb'
          apply h1
          simp only [Bool.and_eq_true, decide_eq_true_eq] at hb'
          tauto
        rw [if_neg h1, hcons, hb, Bool.false_or]

/-- A cell after the marking pass is its old value or 2. -/
lemma foldMarks_cell_cases (patternToDetect : Grid) (ms : List (Nat × Nat))
    (pixels : Grid) (k h : Nat) :
    cell (foldMarks patternToDetect ms pixels) k h = cell pixels k h
      ∨ cell (foldMarks patternToDetect ms pixels) k h = 2 := by
  rw [foldMarks_cell]
  by_cases hc : coveredB patternToDetect ms k h = true
  · rw [if_pos hc]
    unfold markCell
    split_ifs with hv
    · right
      rfl
    · left
      rfl
  · rw [if_neg hc]
    left
    rfl

/-- A cell the marking pass did not set to 2 kept its old value. -/
lemma foldMarks_cell_ne_two (patternToDetect : Grid) (ms : List (Nat × Nat))
    (pixels : Grid) (k h : Nat)
    (hne : cell (foldMarks patternToDetect ms pixels) k h ≠ 2) :
    cell (foldMarks patternToDetect ms pixels) k h = cell pixels k h := by
  rcases foldMarks_cell_cases patternToDetect ms pixels k h with h' | h'
  · exact h'
  · exact absurd h' hne

/-- A cell covered by a found anchor's footprint is 0 or 2 after the pass. -/
lemma foldMarks_cell_covered (patternToDetect : Grid) (ms : List (Nat × Nat))
    (pixels : Grid) (k h : Nat)
    (hcov : coveredB patternToDetect ms k h = true) :
    cell (foldMarks patternToDetect ms pixels) k h = 0
      ∨ cell (foldMarks patternToDetect ms pixels) k h = 2 := by
  rw [foldMarks_cell, if_pos hcov]
  exact markCell_zero_or_two _

/-- The scan over a list of anchors is the marking pass over the anchors the
snapshot comparison accepts: the in-place marking done while scanning equals
computing all matches against the snapshot first and marking them after. -/
lemma processAnchors_eq_foldMarks (patternToDetect snapshot : Grid)
    (anchors : List (Nat × Nat)) (frame : Grid) :
    processAnchors patternToDetect snapshot anchors frame
      = foldMarks patternToDetect
          (anchors.filter fun a => fullMatchAt patternToDetect snapshot a.1 a.2) frame := by
  induction anchors generalizing frame with
  | nil => rfl
  | cons a rest ih =>
      rw [processAnchors]
      by_cases hm : fullMatchAt patternToDetect snapshot a.1 a.2 = true
      · have hf : (a :: rest).filter
              (fun a => fullMatchAt patternToDetect snapshot a.1 a.2)
            = a :: rest.filter (fun a => fullMatchAt patternToDetect snapshot a.1 a.2) := by
          simp [List.filter_cons, hm]
        rw [if_pos hm, ih, hf, foldMarks]
      · have hf : (a :: rest).filter
              (fun a => fullMatchAt patternToDetect snapshot a.1 a.2)
            = rest.filter (fun a => fullMatchAt patternToDetect snapshot a.1 a.2) := by
          have hm' : fullMatchAt patternToDetect snapshot a.1 a.2 = false :=
            Bool.eq_false_iff.mpr hm
          simp [List.filter_cons, hm']
        rw [if_neg hm, ih, hf]

/-- The matcher call equals the two-phase form: record all matches against
the entry snapshot, then mark them in order. -/
lemma checkPattern_eq_foldMarks (patternToDetect pixels : Grid) :
    checkPatternAndMarkExistingPatterns patternToDetect pixels
      = foldMarks patternToDetect (recordedMatches patternToDetect pixels) pixels := by
  rw [checkPatternAndMarkExistingPatterns, recordedMatches]
  by_cases hg : sizeGuardFails patternToDetect pixels = true
  · rw [if_pos hg, if_pos hg]
    rfl
  · rw [if_neg hg, if_neg hg, processAnchors_eq_foldMarks]

/-- Pointwise description of one row comparison: it succeeds exactly when
the pattern row fits within the frame row at offset `i` and every compared
cell agrees. -/
lemma rowMatchesAt_iff (pat row : List Nat) (i : Nat) :
    rowMatchesAt pat row i = true
      ↔ pat.length ≤ row.length - i
        ∧ ∀ h < pat.length, row.getD (i + h) 0 = pat.getD h 0 := by
  rw [show rowMatchesAt pat row i = true ↔ (row.drop i).take pat.length = pat by
    rw [rowMatchesAt, decide_eq_true_eq]]
  constructor
  · intro hs
    have hlen : ((row.drop i).take pat.length).length = pat.length := by rw [hs]
    rw [List.length_take, List.length_drop] at hlen
    refine ⟨by omega, fun h hh => ?_⟩
    have hq := congrArg (fun l => l[h]?) hs
    simp only at hq
    rw [List.getElem?_take, if_pos hh, List.getElem?_drop] at hq
    rw [List.getD_eq_getElem?_getD, List.getD_eq_getElem?_getD, hq]
  · rintro ⟨hlen, hpt⟩
    apply List.ext_getElem?
    intro n
    by_cases hn : n < pat.length
    · rw [List.getElem?_take, if_pos hn, List.getElem?_drop]
      have hin : i + n < row.length := by omega
      rw [List.getElem?_eq_getElem hin, List.getElem?_eq_getElem hn]
      have := hpt n hn
      rw [List.getD_eq_getElem _ _ hin, List.getD_eq_getElem _ _ hn] at this
      rw [this]
    · rw [List.getElem?_take, if_neg hn, List.getElem?_eq_none (by omega)]

/-- The full-match test is the conjunction of its row comparisons. -/
lemma fullMatchAt_iff (patternToDetect pixels : Grid) (j i : Nat) :
    fullMatchAt patternToDetect pixels j i = true
      ↔ ∀ k < patternToDetect.length,
          rowMatchesAt (patternToDetect.getD k []) (pixels.getD (j + k) []) i = true := by
  rw [fullMatchAt, List.all_eq_true]
  constructor
  · intro H k hk
    exact H k (List.mem_range.mpr hk)
  · intro H k hk
    exact H k (List.mem_range.mp hk)

/-- Membership in the visited-anchor list. -/
lemma mem_anchorList (patternToDetect pixels : Grid) (j i : Nat) :
    (j, i) ∈ anchorList patternToDetect pixels
      ↔ j < pixels.length - patternToDetect.length
        ∧ i < (pixels.getD j []).length - (patternToDetect.headD []).length := by
  rw [anchorList]
  simp only [List.mem_flatMap, List.mem_map, List.mem_range, Prod.mk.injEq]
  constructor
  · rintro ⟨j', hj', i', hi', hji, hii⟩
    subst hji
    subst hii
    exact ⟨hj', hi'⟩
  · rintro ⟨hj, hi⟩
    exact ⟨j, hj, i, hi, rfl, rfl⟩

/-- Two grids with the same row count, the same row lengths and the same
cells are equal. -/
lemma grid_ext (g1 g2 : Grid) (hlen : g1.length = g2.length)
    (hrow : ∀ k, (g1.getD k []).length = (g2.getD k []).length)
    (hcell : ∀ k h, cell g1 k h = cell g2 k h) : g1 = g2 := by
  apply List.ext_getElem hlen
  intro k hk1 hk2
  apply List.ext_getElem
  · have := hrow k
    rw [List.getD_eq_getElem _ _ hk1, List.getD_eq_getElem _ _ hk2] at this
    exact this
  · intro h hh1 hh2
    have := hcell k h
    rw [cell, cell, List.getD_eq_getElem _ _ hk1, List.getD_eq_getElem _ _ hk2,
      List.getD_eq_getElem _ _ hh1, List.getD_eq_getElem _ _ hh2] at this
    exact this

/-- Marking a footprint whose cells are all 0 or 2 changes nothing. -/
lemma markPattern_id_of_cells (patternToDetect pixels : Grid) (x y : Nat)
    (h : ∀ k h', (y ≤ k ∧ k < y + patternToDetect.length
        ∧ x ≤ h' ∧ h' < x + (patternToDetect.headD []).length) →
      cell pixels k h' = 0 ∨ cell pixels k h' = 2) :
    markPattern patternToDetect pixels x y = pixels := by
  apply grid_ext
  · rw [markPattern_length]
  · intro k
    rw [markPattern_row_length]
  · intro k h'
    rw [markPattern_cell]
    by_cases hc : y ≤ k ∧ k < y + patternToDetect.length
          ∧ x ≤ h' ∧ h' < x + (patternToDetect.headD []).length
    · rw [if_pos hc]
      rcases h k h' hc with h0 | h2
      · rw [h0]
        rfl
      · rw [h2]
        rfl
    · rw [if_neg hc]

/-- A marking pass each of whose single marks changes nothing changes
nothing. -/
lemma foldMarks_id (patternToDetect : Grid) (ms : List (Nat × Nat)) (pixels : Grid)
    (h : ∀ a ∈ ms, markPattern patternToDetect pixels a.2 a.1 = pixels) :
    foldMarks patternToDetect ms pixels = pixels := by
  induction ms with
  | nil => rfl
  | cons a rest ih =>
      rw [foldMarks, h a (List.mem_cons_self a rest),
        ih fun b hb => h b (List.mem_cons_of_mem a hb)]

/-! ## Claims -/

/-- C1, counterexample. The claim says that a `process` call finding the queue
already holding `capacity` or more frames evicts from the front until fewer
than `capacity` remain and only then appends, so that with capacity 1 a push
onto the one-element queue would leave only the new frame; and that after
enqueueing M > N frames exactly the N most recent are forwarded. On the code,
pushing frame 2 onto the queue holding frame 1 with capacity 1 evicts nothing
(eviction runs only while the size strictly exceeds 1), leaving both frames;
after two pushes both frames, not one, are forwarded. -/
theorem pushAtCapacity_keeps_old_frame_cex :
    pushNewVideoFrame 1 [1] 2 = [1, 2] ∧ ([1, 2] : List FrameId) ≠ [2]
      ∧ drainLoop true (List.foldl (pushNewVideoFrame 1) [] [1, 2]) = [1, 2]
      ∧ (drainLoop true (List.foldl (pushNewVideoFrame 1) [] [1, 2])).length ≠ 1 := by
  refine ⟨rfl, by decide, rfl, by decide⟩

/-- C1, amended. For capacity N ≥ 1: a `process` call evicts oldest-first only
while the queue holds strictly more than N frames (so eviction stops as soon
as at most N remain, and the appended frame can bring the queue to N + 1);
consequently, after enqueueing any sequence of frames before any drain, the
queue holds exactly the `min M (N + 1)` most-recently-enqueued frames in FIFO
order (so exactly N + 1 of them when M > N), and those are exactly the frames
the worker forwards downstream, in FIFO order. -/
theorem relay_capacity_drop_oldest_amended (queueMaxSize : Nat) (h : 1 ≤ queueMaxSize) :
    (∀ q f, pushNewVideoFrame queueMaxSize q f
        = checkQueueSizeConstraint queueMaxSize q ++ [f])
    ∧ (∀ q, checkQueueSizeConstraint queueMaxSize q = q.drop (q.length - queueMaxSize)
        ∧ (checkQueueSizeConstraint queueMaxSize q).length ≤ queueMaxSize)
    ∧ (∀ fs : List FrameId,
        drainLoop true (List.foldl (pushNewVideoFrame queueMaxSize) [] fs)
          = fs.drop (fs.length - (queueMaxSize + 1)))
    ∧ (∀ fs : List FrameId, queueMaxSize < fs.length →
        (List.foldl (pushNewVideoFrame queueMaxSize) [] fs).length = queueMaxSize + 1) := by
  refine ⟨fun q f => pushNewVideoFrame_eq queueMaxSize h q f,
    fun q => ⟨checkQueueSizeConstraint_eq_drop queueMaxSize q,
      checkQueueSizeConstraint_length_le queueMaxSize q⟩,
    fun fs => by rw [foldl_pushNewVideoFrame queueMaxSize h fs, drainLoop_true],
    fun fs hM => by rw [foldl_pushNewVideoFrame queueMaxSize h fs, List.length_drop]; omega⟩

/-- C1, witness for the amended theorem at capacity 1. -/
theorem relay_capacity_drop_oldest_amended_w :
    1 ≤ 1 ∧
    ((∀ q f, pushNewVideoFrame 1 q f = checkQueueSizeConstraint 1 q ++ [f])
    ∧ (∀ q, checkQueueSizeConstraint 1 q = q.drop (q.length - 1)
        ∧ (checkQueueSizeConstraint 1 q).length ≤ 1)
    ∧ (∀ fs : List FrameId,
        drainLoop true (List.foldl (pushNewVideoFrame 1) [] fs)
          = fs.drop (fs.length - (1 + 1)))
    ∧ (∀ fs : List FrameId, 1 < fs.length →
        (List.foldl (pushNewVideoFrame 1) [] fs).length = 1 + 1)) :=
  ⟨by decide, relay_capacity_drop_oldest_amended 1 (by decide)⟩

/-- C2, counterexample. The claim says that with capacity 1, enqueueing F1, F2,
F3 before any drain leaves only F3 to be forwarded. On the code, the queue
after the three pushes is [F2, F3] and both frames are forwarded. -/
theorem capacityOne_three_frames_cex :
    drainLoop true (List.foldl (pushNewVideoFrame 1) [] [1, 2, 3]) = [2, 3]
      ∧ ([2, 3] : List FrameId) ≠ [3] := by
  refine ⟨rfl, by decide⟩

/-- C2, amended. With capacity 1, if three frames F1, F2, F3 are enqueued via
`process` before the worker dequeues any frame, then F2 and F3 (and no other
frame) are forwarded to downstream stages, in that order. -/
theorem capacityOne_forwards_last_two (f1 f2 f3 : FrameId) :
    drainLoop true (List.foldl (pushNewVideoFrame 1) [] [f1, f2, f3]) = [f2, f3] := rfl

/-- C3 (code_bug). The claim says frameRate = 0 is validated and rejected with
a descriptive failure at construction time, before it can reach the
inter-frame delay computation. The embedded constructor is a total function
that performs no validation: constructing with frameRate = 0 succeeds and
stores the zero, which is exactly the value the generator thread divides by
in `1000 / m_frameRate`. -/
theorem videoSource_zero_frameRate_not_rejected (width height : Nat) :
    mkVideoSourceElement width height 0 = ⟨width, height, 0⟩
      ∧ (mkVideoSourceElement width height 0).frameRate = 0 :=
  ⟨rfl, rfl⟩

/-- C8 (code_bug). The claim says the relay worker's wait condition evaluates
to true whenever shutdown has been requested, even on an empty queue, so the
destructor's notify releases the worker and the join completes. The embedded
predicate of `waitForNewVideoFrame` returns only the non-emptiness of the
queue and ignores the running flag entirely: on an empty queue it is false
for every value of `m_runningState`, in particular after the destructor sets
the stopped state, so the notified worker re-enters the wait and the join
never completes. -/
theorem waitPredicate_ignores_shutdown :
    (∀ runningState : Bool, waitPredicate runningState 0 = false)
      ∧ waitPredicate false 0 = waitPredicate true 0 := by
  refine ⟨fun r => rfl, rfl⟩

/-- C9. Downstream stages are invoked in link order, each receiving `process`
then the recursive push-downstream, depth-first left-to-right: linking a new
stage appends it at the back of `m_nextElements`; linking A then B to a
source yields downstream list [A, B]; and the propagation trace for [A, B] is
A's `process` event followed by all events of A's own propagation, and only
then B's `process` event followed by B's propagation — so A's `process` and
propagate complete before B's `process` is invoked for a given frame. -/
theorem fanout_link_order_trace (s : Nat) (A B : PipelineElem) :
    link (link (.mk s []) A) B = .mk s [A, B]
    ∧ downstreamTrace (.mk s [A, B])
        = (elemId A :: downstreamTrace A) ++ (elemId B :: downstreamTrace B)
    ∧ (∀ (next : List PipelineElem) (element : PipelineElem),
        downstreamTrace (link (.mk s next) element)
          = downstreamTrace (.mk s next) ++ (elemId element :: downstreamTrace element)) := by
  refine ⟨rfl, by simp [downstreamTrace, traceOfList], fun next element => ?_⟩
  show traceOfList (next ++ [element]) = traceOfList next ++ _
  rw [traceOfList_append]
  simp [traceOfList]

/-- C10. With capacity 0, `pushNewVideoFrame` returns without touching the
queue, so no `process` call ever enqueues a frame: any sequence of `process`
calls leaves the queue empty, and the worker's drain of an empty queue
forwards nothing downstream; every frame passed to `process` is silently
discarded. -/
theorem capacityZero_discards_all :
    (∀ (q : List FrameId) (f : FrameId), pushNewVideoFrame 0 q f = q)
    ∧ (∀ fs : List FrameId, List.foldl (pushNewVideoFrame 0) [] fs = [])
    ∧ (∀ runningState : Bool, drainLoop runningState [] = []) := by
  refine ⟨fun q f => rfl, fun fs => ?_, fun r => rfl⟩
  induction fs with
  | nil => rfl
  | cons f rest ih =>
      rw [List.foldl_cons]
      exact ih

/-- C4 (code_bug). The claim says every anchor at which the whole pattern fits
is examined, including the last fitting row and column. With the 1-by-1
pattern [[1]] on the 1-by-1 frame [[1]], the pattern fits at anchor (0, 0),
every pattern row matches there, and marking that anchor would change the
frame to [[2]]; yet the scan loops (`j < rows - patternRows`,
`i < cols - patternCols`, both strict) visit no anchor at all, so the call
records no match and returns the frame unchanged. -/
theorem detector_misses_last_anchor :
    fullMatchAt [[1]] [[1]] 0 0 = true
    ∧ markPattern [[1]] [[1]] 0 0 = [[2]]
    ∧ checkPatternAndMarkExistingPatterns [[1]] [[1]] = [[1]]
    ∧ recordedMatches [[1]] [[1]] = []
    ∧ anchorList [[1]] [[1]] = [] := by
  refine ⟨by decide, by decide, by decide, by decide, by decide⟩

/-- C5, counterexample. The claim says a later overlapping match's row-equality
comparisons read cells already changed to 2 by an earlier match, so a marked
cell can no longer equal the pattern's raw values in the same call. With
pattern [[1, 1]] and frame [[1, 1, 1, 0], [0, 0, 0, 0]], the code finds and
marks both overlapping anchors (0,0) and (0,1) — the comparison at (0,1) sees
the entry snapshot values [1, 1], not the marked [2, 1] — producing
[[2, 2, 2, 0], ...]; under the claim's reading the comparison at (0,1) fails
and the result is [[2, 2, 1, 0], ...]. -/
theorem detector_scan_reads_snapshot_cex :
    checkPatternAndMarkExistingPatterns [[1, 1]] [[1, 1, 1, 0], [0, 0, 0, 0]]
        = [[2, 2, 2, 0], [0, 0, 0, 0]]
    ∧ checkPatternMutatingScan [[1, 1]] [[1, 1, 1, 0], [0, 0, 0, 0]]
        = [[2, 2, 1, 0], [0, 0, 0, 0]]
    ∧ checkPatternAndMarkExistingPatterns [[1, 1]] [[1, 1, 1, 0], [0, 0, 0, 0]]
        ≠ checkPatternMutatingScan [[1, 1]] [[1, 1, 1, 0], [0, 0, 0, 0]] := by
  refine ⟨by decide, by decide, by decide⟩

/-- C5, amended. Within a single matcher call, every match's row-equality
comparisons read the frame as it was at call entry (the by-value copy made
at line 358): the call equals recording all matches against the unmutated
snapshot and then marking them, so marking by an earlier overlapping match
never changes a later match's equality test in the same call; and a cell
already marked 2 still counts as nonzero when a later match marks its
footprint (re-marking keeps it 2). -/
theorem detector_scan_uses_entry_snapshot_amended (patternToDetect pixels : Grid) :
    checkPatternAndMarkExistingPatterns patternToDetect pixels
        = foldMarks patternToDetect (recordedMatches patternToDetect pixels) pixels
      ∧ markCell 2 = 2 :=
  ⟨checkPattern_eq_foldMarks patternToDetect pixels, rfl⟩

/-- C6. A frame with fewer rows than the pattern, or whose row width is
smaller than the pattern's row width, is rejected by the size guard: the
matcher returns the pixels byte-for-byte unchanged and records no match. -/
theorem detector_small_frame_unchanged (patternToDetect pixels : Grid)
    (h : pixels.length < patternToDetect.length
      ∨ (pixels.headD []).length < (patternToDetect.headD []).length) :
    checkPatternAndMarkExistingPatterns patternToDetect pixels = pixels
    ∧ recordedMatches patternToDetect pixels = [] := by
  have hg : sizeGuardFails patternToDetect pixels = true := by
    rw [sizeGuardFails, Bool.or_eq_true]
    rcases h with h | h
    · exact Or.inl (decide_eq_true h)
    · exact Or.inr (decide_eq_true h)
  exact ⟨by rw [checkPatternAndMarkExistingPatterns, if_pos hg],
    by rw [recordedMatches, if_pos hg]⟩

/-- C6, witness: a 1-wide frame against a 2-wide pattern. -/
theorem detector_small_frame_unchanged_w :
    (([[1]] : Grid).length < ([[1, 1]] : Grid).length
      ∨ (([[1]] : Grid).headD []).length < (([[1, 1]] : Grid).headD []).length)
    ∧ (checkPatternAndMarkExistingPatterns [[1, 1]] [[1]] = [[1]]
      ∧ recordedMatches [[1, 1]] [[1]] = []) :=
  ⟨by decide, detector_small_frame_unchanged [[1, 1]] [[1]] (by decide)⟩

/-- C7, counterexample. The claim quantifies over every frame and every
pattern. Take the pattern [[1, 2]] (it contains the marked value 2, which
the data model allows in frames and nothing in the code forbids in a
pattern) and the frame [[1, 1, 2, 0], [0, 0, 0, 0]]: the first call matches
at (0, 1) and marks columns 1-2, producing [[1, 2, 2, 0], ...]; on that
output the second call newly matches at (0, 0) — the freshly written 2 now
equals the pattern's cell — and marks column 0, producing
[[2, 2, 2, 0], ...]. The second run changes a cell, so the matcher is not
idempotent for every pattern. -/
theorem detector_process_not_idempotent_cex :
    checkPatternAndMarkExistingPatterns [[1, 2]] [[1, 1, 2, 0], [0, 0, 0, 0]]
        = [[1, 2, 2, 0], [0, 0, 0, 0]]
    ∧ checkPatternAndMarkExistingPatterns [[1, 2]]
          (checkPatternAndMarkExistingPatterns [[1, 2]] [[1, 1, 2, 0], [0, 0, 0, 0]])
        = [[2, 2, 2, 0], [0, 0, 0, 0]]
    ∧ checkPatternAndMarkExistingPatterns [[1, 2]]
          (checkPatternAndMarkExistingPatterns [[1, 2]] [[1, 1, 2, 0], [0, 0, 0, 0]])
        ≠ checkPatternAndMarkExistingPatterns [[1, 2]] [[1, 1, 2, 0], [0, 0, 0, 0]] := by
  refine ⟨by decide, by decide, by decide⟩

/-- C7, amended. For every non-empty rectangular pattern none of whose cells
is the marked value 2 (in particular every 0/1 pattern, the only kind the
program constructs) and every rectangular frame, running the matcher twice
in succession yields the same frame contents as running it once: the second
run changes no cell, because every cell a second-run match could mark lies
in a footprint already marked by the first run and is therefore 0 or 2
already, and re-marking such a cell is a no-op. (The rectangularity and
non-emptiness assumptions restrict the statement to the well-formed inputs
on which the C++ scan performs no out-of-range access; the exclusion of
pattern value 2 is forced by the counterexample.) -/
theorem detector_process_idempotent_amended (patternToDetect pixels : Grid)
    (hne : patternToDetect ≠ [])
    (hrectP : ∀ row ∈ patternToDetect, row.length = (patternToDetect.headD []).length)
    (hrectF : ∀ row ∈ pixels, row.length = (pixels.headD []).length)
    (hno2 : ∀ row ∈ patternToDetect, ∀ v ∈ row, v ≠ 2) :
    checkPatternAndMarkExistingPatterns patternToDetect
        (checkPatternAndMarkExistingPatterns patternToDetect pixels)
      = checkPatternAndMarkExistingPatterns patternToDetect pixels := by
  have hF1 : checkPatternAndMarkExistingPatterns patternToDetect pixels
      = foldMarks patternToDetect (recordedMatches patternToDetect pixels) pixels :=
    checkPattern_eq_foldMarks patternToDetect pixels
  have hlen1 : (checkPatternAndMarkExistingPatterns patternToDetect pixels).length
      = pixels.length := by
    rw [hF1, foldMarks_length]
  have hrow1 : ∀ k,
      ((checkPatternAndMarkExistingPatterns patternToDetect pixels).getD k []).length
        = (pixels.getD k []).length := fun k => by
    rw [hF1, foldMarks_row_length]
  have hhead1 : ((checkPatternAndMarkExistingPatterns patternToDetect pixels).headD
      []).length = (pixels.headD []).length := by
    rw [headD_eq_getD, headD_eq_getD, hrow1 0]
  by_cases hg : sizeGuardFails patternToDetect pixels = true
  · have hid : checkPatternAndMarkExistingPatterns patternToDetect pixels = pixels := by
      rw [checkPatternAndMarkExistingPatterns, if_pos hg]
    rw [hid]
    exact hid
  · have hg' : sizeGuardFails patternToDetect pixels = false := Bool.eq_false_iff.mpr hg
    have hg1 : sizeGuardFails patternToDetect
        (checkPatternAndMarkExistingPatterns patternToDetect pixels) = false := by
      rw [sizeGuardFails, hlen1, hhead1]
      rw [sizeGuardFails] at hg'
      exact hg'
    have hanch : anchorList patternToDetect
          (checkPatternAndMarkExistingPatterns patternToDetect pixels)
        = anchorList patternToDetect pixels := by
      rw [anchorList, anchorList, hlen1]
      have hfun : (fun j => (List.range
              (((checkPatternAndMarkExistingPatterns patternToDetect pixels).getD j
                []).length - (patternToDetect.headD []).length)).map fun i => (j, i))
          = fun j => (List.range
              ((pixels.getD j []).length - (patternToDetect.headD []).length)).map
                fun i => (j, i) := by
        funext j
        rw [hrow1 j]
      rw [hfun]
    rw [checkPattern_eq_foldMarks patternToDetect
      (checkPatternAndMarkExistingPatterns patternToDetect pixels)]
    apply foldMarks_id
    intro a ha
    rw [recordedMatches, if_neg (by rw [hg1]; exact Bool.false_ne_true)] at ha
    obtain ⟨haanch, hfm1⟩ := List.mem_filter.mp ha
    have hamem : a ∈ anchorList patternToDetect pixels := by
      rw [hanch] at haanch
      exact haanch
    have hfm1' := (fullMatchAt_iff patternToDetect
      (checkPatternAndMarkExistingPatterns patternToDetect pixels) a.1 a.2).mp hfm1
    have hPne2 : ∀ k, k < patternToDetect.length →
        ∀ h', h' < (patternToDetect.getD k []).length →
        (patternToDetect.getD k []).getD h' 0 ≠ 2 := by
      intro k hk h' hh'
      have hrowmem : patternToDetect.getD k [] ∈ patternToDetect := by
        rw [List.getD_eq_getElem _ _ hk]
        exact List.getElem_mem hk
      have hval : (patternToDetect.getD k []).getD h' 0 ∈ patternToDetect.getD k [] := by
        rw [List.getD_eq_getElem _ _ hh']
        exact List.getElem_mem hh'
      exact hno2 _ hrowmem _ hval
    have hcell1 : ∀ k, k < patternToDetect.length →
        ∀ h', h' < (patternToDetect.getD k []).length →
        cell (checkPatternAndMarkExistingPatterns patternToDetect pixels)
            (a.1 + k) (a.2 + h')
          = (patternToDetect.getD k []).getD h' 0 := by
      intro k hk h' hh'
      have hrm := (rowMatchesAt_iff (patternToDetect.getD k [])
        ((checkPatternAndMarkExistingPatterns patternToDetect pixels).getD (a.1 + k) [])
        a.2).mp (hfm1' k hk)
      unfold cell
      exact hrm.2 h' hh'
    have hcell0 : ∀ k, k < patternToDetect.length →
        ∀ h', h' < (patternToDetect.getD k []).length →
        cell pixels (a.1 + k) (a.2 + h') = (patternToDetect.getD k []).getD h' 0 := by
      intro k hk h' hh'
      have hne2 : cell (foldMarks patternToDetect (recordedMatches patternToDetect pixels)
          pixels) (a.1 + k) (a.2 + h') ≠ 2 := by
        rw [← hF1, hcell1 k hk h' hh']
        exact hPne2 k hk h' hh'
      have hpx := foldMarks_cell_ne_two patternToDetect
        (recordedMatches patternToDetect pixels) pixels (a.1 + k) (a.2 + h') hne2
      rw [← hF1] at hpx
      rw [← hpx]
      exact hcell1 k hk h' hh'
    have hfm0 : fullMatchAt patternToDetect pixels a.1 a.2 = true := by
      rw [fullMatchAt_iff]
      intro k hk
      rw [rowMatchesAt_iff]
      have hrm := (rowMatchesAt_iff (patternToDetect.getD k [])
        ((checkPatternAndMarkExistingPatterns patternToDetect pixels).getD (a.1 + k) [])
        a.2).mp (hfm1' k hk)
      constructor
      · have hl := hrm.1
        rw [hrow1 (a.1 + k)] at hl
        exact hl
      · intro h' hh'
        have hc := hcell0 k hk h' hh'
        unfold cell at hc
        exact hc
    have hms0 : a ∈ recordedMatches patternToDetect pixels := by
      rw [recordedMatches, if_neg (by rw [hg']; exact Bool.false_ne_true)]
      exact List.mem_filter.mpr ⟨hamem, hfm0⟩
    apply markPattern_id_of_cells
    intro k h' hc
    have hcov : coveredB patternToDetect (recordedMatches patternToDetect pixels) k h'
        = true := by
      rw [coveredB, List.any_eq_true]
      refine ⟨a, hms0, ?_⟩
      simp only [Bool.and_eq_true, decide_eq_true_eq]
      exact ⟨⟨⟨hc.1, hc.2.1⟩, hc.2.2.1⟩, hc.2.2.2⟩
    have hcells := foldMarks_cell_covered patternToDetect
      (recordedMatches patternToDetect pixels) pixels k h' hcov
    rw [← hF1] at hcells
    exact hcells

/-- C7, witness for the amended theorem: the 0/1 pattern [[1, 1]] on the
rectangular frame [[1, 1, 1], [0, 0, 0]]. -/
theorem detector_process_idempotent_amended_w :
    (([[1, 1]] : Grid) ≠ []
      ∧ (∀ row ∈ ([[1, 1]] : Grid), row.length = (([[1, 1]] : Grid).headD []).length)
      ∧ (∀ row ∈ ([[1, 1, 1], [0, 0, 0]] : Grid),
          row.length = (([[1, 1, 1], [0, 0, 0]] : Grid).headD []).length)
      ∧ (∀ row ∈ ([[1, 1]] : Grid), ∀ v ∈ row, v ≠ 2))
    ∧ checkPatternAndMarkExistingPatterns [[1, 1]]
          (checkPatternAndMarkExistingPatterns [[1, 1]] [[1, 1, 1], [0, 0, 0]])
        = checkPatternAndMarkExistingPatterns [[1, 1]] [[1, 1, 1], [0, 0, 0]] :=
  ⟨⟨by decide, by decide, by decide, by decide⟩,
    detector_process_idempotent_amended [[1, 1]] [[1, 1, 1], [0, 0, 0]]
      (by decide) (by decide) (by decide) (by decide)⟩
